import Mathlib

/-!
Shallow embedding of the match-and-snippet engine of `src/index.ts`
(a content-search MCP server over a Ghost blog backend and a Contentful
structured-content backend).

Strings are modelled as `List Char`; a JavaScript value that may be
`undefined`/`null` is modelled as an `Option`.  JavaScript truthiness on
strings (`!s` is true for `undefined`, `null` and `""`) is modelled
explicitly at each use site.  `String.prototype.toLowerCase` is modelled
as a character-wise `Char.toLower` map (the source only relies on simple
case folding).
-/

/-- Character-wise lowercasing; models `s.toLowerCase()`. -/
def toLowerStr (s : List Char) : List Char := s.map Char.toLower

/-- `occursAt h q i` holds when `q` occurs in `h` starting at position `i`. -/
def occursAt (h q : List Char) (i : Nat) : Bool := q.isPrefixOf (h.drop i)

/-- Index of the first occurrence of `q` in `h`; models
`h.indexOf(q)` (with `none` for JavaScript's `-1`). -/
def firstOccur (h q : List Char) : Option Nat :=
  (List.range (h.length + 1)).find? (occursAt h q)

/-- Containment of `q` in `h` as a contiguous run; models `h.includes(q)`. -/
def includesSub (h q : List Char) : Bool := (firstOccur h q).isSome

/-- The three-dot truncation marker `"..."` used by the snippet extractors. -/
def ellipsis : List Char := ("...").toList

/-- JavaScript `a || b` on a string-or-null value: `a` is kept unless it is
`null`/`undefined` or the empty string (both falsy). -/
def jsOrElse (a b : Option (List Char)) : Option (List Char) :=
  match a with
  | some s => if s.isEmpty then b else some s
  | none => b

/-- Embeds `matchesQuery` (src/index.ts:62-65):
`if (!text) return false; return text.toLowerCase().includes(query.toLowerCase())`.
Note `!text` is also true for the empty string. -/
def matchesQuery (text : Option (List Char)) (query : List Char) : Bool :=
  match text with
  | none => false
  | some t =>
    if t.isEmpty then false
    else includesSub (toLowerStr t) (toLowerStr query)

/-- Embeds `extractSnippet` (src/index.ts:67-83).  The source's default
argument `contextChars = 150` is passed explicitly by the embedding's
call sites, mirroring every call in the source (which always uses the
default). -/
def extractSnippet (text : Option (List Char)) (query : List Char)
    (contextChars : Nat) : Option (List Char) :=
  match text with
  | none => none
  | some t =>
    if t.isEmpty then none
    else
      match firstOccur (toLowerStr t) (toLowerStr query) with
      | none => none
      | some idx =>
        let start := idx - contextChars
        let stop := min t.length (idx + query.length + contextChars)
        let snippet := (t.take stop).drop start
        let snippet1 := if 0 < start then ellipsis ++ snippet else snippet
        let snippet2 := if stop < t.length then snippet1 ++ ellipsis else snippet1
        some snippet2

/-- Embeds `extractPlainTextSnippet` (src/index.ts:96-112), which is written
out in the source as a second, textually identical copy of
`extractSnippet`. -/
def extractPlainTextSnippet (text : Option (List Char)) (query : List Char)
    (contextChars : Nat) : Option (List Char) :=
  match text with
  | none => none
  | some t =>
    if t.isEmpty then none
    else
      match firstOccur (toLowerStr t) (toLowerStr query) with
      | none => none
      | some idx =>
        let start := idx - contextChars
        let stop := min t.length (idx + query.length + contextChars)
        let snippet := (t.take stop).drop start
        let snippet1 := if 0 < start then ellipsis ++ snippet else snippet
        let snippet2 := if stop < t.length then snippet1 ++ ellipsis else snippet1
        some snippet2

/-- Helper for `stripHtml`: the remainder of the input after the first `>`
character, or `none` when no `>` follows (in which case the regex
`/<[^>]*>/` has no match starting at the pending `<`). -/
def findGt : List Char → Option (List Char)
  | [] => none
  | c :: rest => if c = '>' then some rest else findGt rest

/-- Embeds `stripHtml` (src/index.ts:58-60):
`html.replace(/<[^>]*>/g, "")`.  A `<` is dropped together with everything
up to the next `>` when one exists; a `<` with no later `>` does not start
a regex match and is kept verbatim. -/
def stripHtml : List Char → List Char
  | [] => []
  | c :: rest =>
    if c = '<' then
      match h2 : findGt rest with
      | some rest2 => stripHtml rest2
      | none => c :: stripHtml rest
    else c :: stripHtml rest
termination_by l => l.length
decreasing_by
  · have hlen : ∀ (l r : List Char), findGt l = some r → r.length < l.length := by
      intro l
      induction l with
      | nil => intro r h; simp [findGt] at h
      | cons a as ih =>
        intro r h
        simp only [findGt] at h
        by_cases ha : a = '>'
        · simp [ha] at h
          simp [← h]
        · simp [ha] at h
          exact Nat.lt_succ_of_lt (ih r h)
    exact Nat.lt_succ_of_lt (hlen rest rest2 h2)
  · simp
  · simp

/-- Rich-text document node, carrying exactly the properties probed by
`extractTextFromRichText` (src/index.ts:87-94): an optional `nodeType`
tag, an optional text `value`, and an optional `content` child array. -/
inductive RichNode where
  | mk (nodeType : Option (List Char)) (value : Option (List Char))
       (content : Option (List RichNode))

/-- The `nodeType` field of a rich-text node. -/
def RichNode.nodeType : RichNode → Option (List Char)
  | RichNode.mk nt _ _ => nt

/-- The `value` field of a rich-text node. -/
def RichNode.value : RichNode → Option (List Char)
  | RichNode.mk _ v _ => v

/-- The `content` field of a rich-text node. -/
def RichNode.content : RichNode → Option (List RichNode)
  | RichNode.mk _ _ c => c

/-- Space-joining of a list of strings; models `parts.join(" ")`. -/
def joinSpace : List (List Char) → List Char
  | [] => []
  | [s] => s
  | s :: rest => s ++ ' ' :: joinSpace rest

mutual

/-- Embeds the recursive body of `extractTextFromRichText`
(src/index.ts:87-94) on a non-null node:
`if (node.nodeType === "text") return node.value || "";`
`if (Array.isArray(node.content)) return node.content.map(...).join(" ");`
`return "";`  (`node.value || ""` yields `""` for a missing or empty
value, which `Option.getD []` reproduces since an empty value already is
`[]`). -/
def flattenNode : RichNode → List Char
  | RichNode.mk nodeType value content =>
    if nodeType = some (("text").toList) then value.getD []
    else
      match content with
      | some children => joinSpace (flattenList children)
      | none => []

/-- `node.content.map(extractTextFromRichText)` on the child array. -/
def flattenList : List RichNode → List (List Char)
  | [] => []
  | n :: ns => flattenNode n :: flattenList ns

end

/-- Embeds `extractTextFromRichText` (src/index.ts:87-94) including its
`if (!node) return ""` guard for an absent document. -/
def extractTextFromRichText (node : Option RichNode) : List Char :=
  match node with
  | none => []
  | some n => flattenNode n

/-- A Ghost tag object, of which the blog-post mapper reads `name`. -/
structure GhostTag where
  name : Option (List Char)
deriving DecidableEq

/-- A Ghost blog post record, carrying the fields probed by
`search_blog_posts` (src/index.ts:141-168). -/
structure BlogPost where
  title : Option (List Char)
  slug : Option (List Char)
  excerpt : Option (List Char)
  html : Option (List Char)
  published_at : Option (List Char)
  tags : Option (List GhostTag)
deriving DecidableEq

/-- `const bodyText = p.html ? stripHtml(p.html) : ""` — the body markup
stripped of tags, or `""` when `html` is absent or empty (falsy). -/
def blogPostBodyText (p : BlogPost) : List Char :=
  match p.html with
  | some h => if h.isEmpty then [] else stripHtml h
  | none => []

/-- The filter predicate of `search_blog_posts` (src/index.ts:148-156):
a post is retained when title, excerpt or stripped body matches. -/
def blogPostFilter (p : BlogPost) (query : List Char) : Bool :=
  let bodyText := blogPostBodyText p
  matchesQuery p.title query || matchesQuery p.excerpt query ||
    matchesQuery (some bodyText) query

/-- JavaScript template-literal stringification of a possibly-undefined
string, as in `` `/blog/${p.slug}` ``. -/
def jsShow (s : Option (List Char)) : List Char :=
  match s with
  | some t => t
  | none => ("undefined").toList

/-- The result object built by `search_blog_posts` for a retained post
(src/index.ts:157-168). -/
structure BlogPostResult where
  title : Option (List Char)
  slug : Option (List Char)
  url : List Char
  excerpt : Option (List Char)
  published_at : Option (List Char)
  tags : Option (List (Option (List Char)))
  matched_snippet : Option (List Char)
deriving DecidableEq

/-- The `.map` body of `search_blog_posts` (src/index.ts:157-168); in
particular `matched_snippet: extractSnippet(bodyText, query)` is computed
from the stripped body text only. -/
def blogPostToResult (p : BlogPost) (query : List Char) : BlogPostResult :=
  let bodyText := blogPostBodyText p
  { title := p.title
    slug := p.slug
    url := ("/blog/").toList ++ jsShow p.slug
    excerpt := p.excerpt.map (List.take 200)
    published_at := p.published_at
    tags := p.tags.map (List.map GhostTag.name)
    matched_snippet := extractSnippet (some bodyText) query 150 }

/-- The full pipeline of `search_blog_posts` over an in-memory record
set: filter then map (src/index.ts:148-168). -/
def searchBlogPosts (posts : List BlogPost) (query : List Char) : List BlogPostResult :=
  (posts.filter (fun p => blogPostFilter p query)).map
    (fun p => blogPostToResult p query)

/-- A Ghost page record, carrying the fields probed by
`search_blog_pages` (src/index.ts:186-205). -/
structure BlogPage where
  title : Option (List Char)
  slug : Option (List Char)
  html : Option (List Char)
deriving DecidableEq

/-- `const bodyText = p.html ? stripHtml(p.html) : ""` for a page. -/
def blogPageBodyText (p : BlogPage) : List Char :=
  match p.html with
  | some h => if h.isEmpty then [] else stripHtml h
  | none => []

/-- The filter predicate of `search_blog_pages` (src/index.ts:192-196). -/
def blogPageFilter (p : BlogPage) (query : List Char) : Bool :=
  let bodyText := blogPageBodyText p
  matchesQuery p.title query || matchesQuery (some bodyText) query

/-- The result object built by `search_blog_pages` (src/index.ts:197-205). -/
structure BlogPageResult where
  title : Option (List Char)
  slug : Option (List Char)
  url : List Char
  matched_snippet : Option (List Char)
deriving DecidableEq

/-- The `.map` body of `search_blog_pages` (src/index.ts:197-205);
`matched_snippet` again comes from the stripped body text only. -/
def blogPageToResult (p : BlogPage) (query : List Char) : BlogPageResult :=
  let bodyText := blogPageBodyText p
  { title := p.title
    slug := p.slug
    url := ("/blog/").toList ++ jsShow p.slug
    matched_snippet := extractSnippet (some bodyText) query 150 }

/-- A Contentful case-study record, carrying the fields probed by
`search_case_studies` (src/index.ts:315-349).  The `content` field models
`item.content?.json` (the rich-text root, when present). -/
structure CaseStudy where
  name : Option (List Char)
  slug : Option (List Char)
  externalLink : Option (List Char)
  overview : Option (List Char)
  category : Option (List Char)
  useCase : Option (List Char)
  impact : Option (List Char)
  quoteText : Option (List Char)
  metaTitle : Option (List Char)
  metaDescription : Option (List Char)
  content : Option RichNode

/-- `const bodyText = extractTextFromRichText(item.content?.json)`. -/
def caseStudyBodyText (s : CaseStudy) : List Char :=
  extractTextFromRichText s.content

/-- The filter predicate of `search_case_studies` (src/index.ts:316-327). -/
def caseStudyFilter (s : CaseStudy) (query : List Char) : Bool :=
  let bodyText := caseStudyBodyText s
  matchesQuery s.name query ||
  matchesQuery s.metaTitle query ||
  matchesQuery s.metaDescription query ||
  matchesQuery s.overview query ||
  matchesQuery s.quoteText query ||
  matchesQuery s.useCase query ||
  matchesQuery s.impact query ||
  matchesQuery (some bodyText) query

/-- The `matched_snippet` chain of `search_case_studies`
(src/index.ts:339-347): a `||` fallback over the snippet of each field in
declared order. -/
def caseStudySnippet (s : CaseStudy) (query : List Char) : Option (List Char) :=
  let bodyText := caseStudyBodyText s
  jsOrElse (extractPlainTextSnippet s.name query 150)
    (jsOrElse (extractPlainTextSnippet s.metaTitle query 150)
      (jsOrElse (extractPlainTextSnippet s.metaDescription query 150)
        (jsOrElse (extractPlainTextSnippet s.overview query 150)
          (jsOrElse (extractPlainTextSnippet s.quoteText query 150)
            (jsOrElse (extractPlainTextSnippet s.useCase query 150)
              (jsOrElse (extractPlainTextSnippet s.impact query 150)
                (extractPlainTextSnippet (some bodyText) query 150)))))))

/-- A Contentful internal event page record, carrying the fields probed by
`search_events` (src/index.ts:399-425).  `additionalEventDetails` and
`agenda` model the respective `?.json` rich-text roots. -/
structure InternalEvent where
  heroTitle : Option (List Char)
  metaDescription : Option (List Char)
  url : Option (List Char)
  eventDate : Option (List Char)
  additionalEventDetails : Option RichNode
  agenda : Option RichNode

/-- The filter predicate over internal event pages (src/index.ts:399-409). -/
def internalEventFilter (evt : InternalEvent) (query : List Char) : Bool :=
  let detailsText := extractTextFromRichText evt.additionalEventDetails
  let agendaText := extractTextFromRichText evt.agenda
  matchesQuery evt.heroTitle query ||
  matchesQuery evt.metaDescription query ||
  matchesQuery (some detailsText) query ||
  matchesQuery (some agendaText) query

/-- The `matched_snippet` chain over internal event pages
(src/index.ts:419-423): heroTitle, then metaDescription, then flattened
additional details, then flattened agenda. -/
def internalEventSnippet (evt : InternalEvent) (query : List Char) : Option (List Char) :=
  let detailsText := extractTextFromRichText evt.additionalEventDetails
  let agendaText := extractTextFromRichText evt.agenda
  jsOrElse (extractPlainTextSnippet evt.heroTitle query 150)
    (jsOrElse (extractPlainTextSnippet evt.metaDescription query 150)
      (jsOrElse (extractPlainTextSnippet (some detailsText) query 150)
        (extractPlainTextSnippet (some agendaText) query 150)))

/-- Generic record-matcher inclusion test (spec section 4.4): a record is
retained when `matchesQuery` succeeds on at least one resolved field.
Each per-tool filter above is an instance of this shape. -/
def recordRetained {α : Type} (fields : List (α → Option (List Char)))
    (query : List Char) (r : α) : Bool :=
  fields.any (fun f => matchesQuery (f r) query)

/-- Number of positions at which `q` occurs in `h`; used to state
"contains the query exactly once". -/
def countOccur (h q : List Char) : Nat :=
  ((List.range (h.length + 1)).filter (occursAt h q)).length

mutual

/-- Modelled from the spec: the depth-first sequence of a rich-text
tree's leaf text values (one entry per `text` node, in original order). -/
def leafValues : RichNode → List (List Char)
  | RichNode.mk nt v c =>
    if nt = some (("text").toList) then [v.getD []]
    else
      match c with
      | some children => leafValuesList children
      | none => []

/-- Depth-first leaf values of a forest of rich-text nodes. -/
def leafValuesList : List RichNode → List (List Char)
  | [] => []
  | n :: ns => leafValues n ++ leafValuesList ns

end

mutual

/-- Trees in which every node is a `text` node or a container with a
non-empty `content` array all of whose children are again such trees.
On these trees no child contributes an empty join segment without a
corresponding leaf. -/
def goodNode : RichNode → Bool
  | RichNode.mk nt _ c =>
    if nt = some (("text").toList) then true
    else
      match c with
      | some children => !children.isEmpty && goodList children
      | none => false

/-- `goodNode` on every element of a forest. -/
def goodList : List RichNode → Bool
  | [] => true
  | n :: ns => goodNode n && goodList ns

end

/-- Modelled from the spec (section 4.1), cases read in order: a `text`
node yields its literal value (empty when missing), any other node with a
`content` sequence yields the space-joined flattening of its children in
order, any remaining node yields the empty string, and an absent document
yields the empty string. -/
def flattenContract (f : Option RichNode → List Char) : Prop :=
  f none = [] ∧
  (∀ v c, f (some (RichNode.mk (some (("text").toList)) v c)) = v.getD []) ∧
  (∀ nt v children, nt ≠ some (("text").toList) →
      f (some (RichNode.mk nt v (some children))) =
        joinSpace (children.map (fun child => f (some child)))) ∧
  (∀ nt v, nt ≠ some (("text").toList) →
      f (some (RichNode.mk nt v none)) = [])


/-- Convenience constructor for a rich-text `text` node with a value. -/
def textNodeOf (s : List Char) : RichNode :=
  RichNode.mk (some (("text").toList)) (some s) none

/-- Fixture for claim C1: a blog post whose excerpt contains the query but
whose body (absent `html`) does not. -/
def c1Post : BlogPost :=
  { title := some (("Energy news").toList)
    slug := some (("energy-news").toList)
    excerpt := some (("We explore renewable energy trends").toList)
    html := none
    published_at := none
    tags := none }

/-- The query of the C1 scenario. -/
def c1Query : List Char := ("renewable").toList

/-- Fixture for the C1 witness: a post matching only on title/excerpt. -/
def c1WitPost : BlogPost :=
  { title := some (("Pricing guide").toList)
    slug := none
    excerpt := some (("pricing details").toList)
    html := none
    published_at := none
    tags := none }

/-- Fixture for the C1 witness: a page matching only on title. -/
def c1WitPage : BlogPage :=
  { title := some (("About us").toList), slug := none, html := none }

/-- Fixture for claim C2: a haystack with a single occurrence of `q` at
index 151 and 301 further characters after it. -/
def c2Hay : List Char := List.replicate 151 'a' ++ 'q' :: List.replicate 301 'a'

/-- Fixture for the C2 witness: the single occurrence sits at index 0. -/
def c2WitHay : List Char := 'q' :: List.replicate 302 'a'

/-- Fixture for claim C6: two text children nested inside two levels of
container nodes. -/
def c6Nested : RichNode :=
  RichNode.mk (some (("document").toList)) none
    (some [RichNode.mk (some (("paragraph").toList)) none
      (some [textNodeOf (("a").toList), textNodeOf (("b").toList)])])

/-- Fixture for claim C7: a kind-less, content-less child interleaved
between two text leaves. -/
def c7Bad : RichNode :=
  RichNode.mk none none
    (some [textNodeOf (("a").toList), RichNode.mk none none none,
           textNodeOf (("b").toList)])

/-- Fixture for the C7 witness: a tree of text nodes and non-empty
containers only. -/
def c7Good : RichNode :=
  RichNode.mk none none
    (some [RichNode.mk none none (some [textNodeOf (("a").toList)]),
           textNodeOf (("b").toList)])

/-- Fixture for claim C8: an agenda rich-text document. -/
def c8Agenda : RichNode :=
  RichNode.mk (some (("document").toList)) none
    (some [textNodeOf (("renewable energy panel").toList)])

/-- Fixture for claim C8: an event page matching the query only through
its agenda. -/
def c8Event : InternalEvent :=
  { heroTitle := some (("Summit").toList)
    metaDescription := none
    url := some (("summit").toList)
    eventDate := none
    additionalEventDetails := none
    agenda := some c8Agenda }

/-- The query of the C8 scenario. -/
def c8Query : List Char := ("renewable").toList

/-- Fixture for the C9 witness: a post whose title matches the query. -/
def c9Post : BlogPost :=
  { title := some (("Hello world").toList)
    slug := none
    excerpt := none
    html := none
    published_at := none
    tags := none }

/-- The query of the C9 witness. -/
def c9Query : List Char := ("hello").toList


theorem extractPlain_eq_extract (text : Option (List Char)) (q : List Char) (c : Nat) :
    extractPlainTextSnippet text q c = extractSnippet text q c := rfl

theorem includesSub_iff_parts (h q : List Char) :
    includesSub h q = true ↔ ∃ pre post, h = pre ++ q ++ post := by
  unfold includesSub firstOccur
  constructor
  · intro hs
    obtain ⟨i, hmem, hocc⟩ := List.find?_isSome.mp hs
    have hpre : q <+: h.drop i := List.isPrefixOf_iff_prefix.mp hocc
    obtain ⟨post, hpost⟩ := hpre
    refine ⟨h.take i, post, ?_⟩
    rw [List.append_assoc, hpost, List.take_append_drop]
  · rintro ⟨pre, post, rfl⟩
    have hocc : occursAt (pre ++ q ++ post) q pre.length = true := by
      unfold occursAt
      rw [List.append_assoc, List.drop_left pre (q ++ post)]
      exact List.isPrefixOf_iff_prefix.mpr (List.prefix_append q post)
    have hmem : pre.length ∈ List.range ((pre ++ q ++ post).length + 1) := by
      rw [List.mem_range]
      simp [List.length_append]
      omega
    exact List.find?_isSome.mpr ⟨pre.length, hmem, hocc⟩

theorem matches_eq_extract_isSome (text : Option (List Char)) (q : List Char) :
    matchesQuery text q = (extractSnippet text q 150).isSome := by
  cases text with
  | none => rfl
  | some t =>
    cases ht : t.isEmpty
    · cases hf : firstOccur (toLowerStr t) (toLowerStr q) <;>
        simp [matchesQuery, extractSnippet, includesSub, ht, hf]
    · simp [matchesQuery, extractSnippet, ht]

theorem matches_false_extract_none (text : Option (List Char)) (q : List Char)
    (h : matchesQuery text q = false) : extractSnippet text q 150 = none := by
  have he := matches_eq_extract_isSome text q
  rw [h] at he
  exact Option.not_isSome_iff_eq_none.mp (by simp [← he])

theorem matches_false_plain_none (text : Option (List Char)) (q : List Char)
    (h : matchesQuery text q = false) : extractPlainTextSnippet text q 150 = none := by
  rw [extractPlain_eq_extract]
  exact matches_false_extract_none text q h

theorem find?_of_filter_singleton {p : Nat → Bool} :
    ∀ (l : List Nat) (i : Nat), l.filter p = [i] → l.find? p = some i := by
  intro l
  induction l with
  | nil => intro i hf; simp at hf
  | cons a l ih =>
    intro i hf
    by_cases ha : p a
    · rw [List.filter_cons_of_pos ha] at hf
      simp at hf
      rw [List.find?_cons_of_pos _ ha, hf.1]
    · rw [List.filter_cons_of_neg (by simpa using ha)] at hf
      rw [List.find?_cons_of_neg _ (by simpa using ha)]
      exact ih i hf

theorem firstOccur_of_unique (h q : List Char) (i : Nat)
    (hocc : occursAt h q i = true) (hi : i < h.length + 1)
    (hcount : countOccur h q = 1) : firstOccur h q = some i := by
  obtain ⟨j, hj⟩ := List.length_eq_one.mp hcount
  have hmem : i ∈ (List.range (h.length + 1)).filter (occursAt h q) :=
    List.mem_filter.mpr ⟨List.mem_range.mpr hi, hocc⟩
  rw [hj] at hmem
  have hij : i = j := by simpa using hmem
  subst hij
  exact find?_of_filter_singleton _ _ hj

theorem extractSnippet_found (t q : List Char) (c idx : Nat)
    (hne : t ≠ []) (hf : firstOccur (toLowerStr t) (toLowerStr q) = some idx) :
    extractSnippet (some t) q c =
      some ((if c < idx then ellipsis else []) ++
        ((t.take (min t.length (idx + q.length + c))).drop (idx - c)) ++
        (if idx + q.length + c < t.length then ellipsis else [])) := by
  have ht : t.isEmpty = false := by simpa using hne
  simp only [extractSnippet, ht, hf]
  by_cases h1 : c < idx <;> by_cases h2 : idx + q.length + c < t.length
  · have e1 : 0 < idx - c := by omega
    have e2 : min t.length (idx + q.length + c) < t.length := by omega
    simp [e1, h1, e2, h2, List.append_assoc]
  · have e1 : 0 < idx - c := by omega
    have e2 : ¬ min t.length (idx + q.length + c) < t.length := by omega
    simp [e1, h1, e2, h2]
  · have e1 : ¬ 0 < idx - c := by omega
    have e2 : min t.length (idx + q.length + c) < t.length := by omega
    simp [e1, h1, e2, h2]
  · have e1 : ¬ 0 < idx - c := by omega
    have e2 : ¬ min t.length (idx + q.length + c) < t.length := by omega
    simp [e1, h1, e2, h2]

theorem joinSpace_cons (s : List Char) (rest : List (List Char)) (h : rest ≠ []) :
    joinSpace (s :: rest) = s ++ ' ' :: joinSpace rest := by
  cases rest with
  | nil => cases h rfl
  | cons a r => rfl

theorem joinSpace_append (a b : List (List Char)) (ha : a ≠ []) (hb : b ≠ []) :
    joinSpace (a ++ b) = joinSpace a ++ ' ' :: joinSpace b := by
  induction a with
  | nil => cases ha rfl
  | cons s rest ih =>
    cases rest with
    | nil =>
      cases b with
      | nil => cases hb rfl
      | cons t ts => simp [joinSpace]
    | cons s2 r2 =>
      rw [List.cons_append, joinSpace_cons s ((s2 :: r2) ++ b) (by simp),
        joinSpace_cons s (s2 :: r2) (by simp), ih (by simp)]
      simp

theorem flattenList_eq_map : ∀ l : List RichNode, flattenList l = l.map flattenNode := by
  intro l
  induction l with
  | nil => rfl
  | cons n ns ih => simp [flattenList, ih]

theorem flattenNode_text (nt v : Option (List Char)) (c : Option (List RichNode))
    (h : nt = some (("text").toList)) :
    flattenNode (RichNode.mk nt v c) = v.getD [] := by
  unfold flattenNode
  rw [if_pos h]

theorem flattenNode_container (nt v : Option (List Char)) (children : List RichNode)
    (h : nt ≠ some (("text").toList)) :
    flattenNode (RichNode.mk nt v (some children)) = joinSpace (flattenList children) := by
  unfold flattenNode
  rw [if_neg h]

theorem leafValues_text (nt v : Option (List Char)) (c : Option (List RichNode))
    (h : nt = some (("text").toList)) :
    leafValues (RichNode.mk nt v c) = [v.getD []] := by
  unfold leafValues
  rw [if_pos h]

theorem leafValues_container (nt v : Option (List Char)) (children : List RichNode)
    (h : nt ≠ some (("text").toList)) :
    leafValues (RichNode.mk nt v (some children)) = leafValuesList children := by
  unfold leafValues
  rw [if_neg h]

mutual

theorem goodNode_flatten : ∀ n : RichNode, goodNode n = true →
    flattenNode n = joinSpace (leafValues n) ∧ leafValues n ≠ []
  | RichNode.mk nt v c => by
    intro hg
    by_cases hnt : nt = some (("text").toList)
    · rw [flattenNode_text nt v c hnt, leafValues_text nt v c hnt]
      exact ⟨rfl, by simp⟩
    · unfold goodNode at hg
      rw [if_neg hnt] at hg
      cases c with
      | none => simp at hg
      | some children =>
        simp only [Bool.and_eq_true, Bool.not_eq_true'] at hg
        obtain ⟨hne, hgl⟩ := hg
        have hchildren : children ≠ [] := by
          cases children with
          | nil => simp at hne
          | cons m ms => simp
        have hl := goodList_flatten children hchildren hgl
        rw [flattenNode_container nt v children hnt, leafValues_container nt v children hnt]
        exact ⟨hl.1, hl.2⟩

theorem goodList_flatten : ∀ l : List RichNode, l ≠ [] → goodList l = true →
    joinSpace (flattenList l) = joinSpace (leafValuesList l) ∧ leafValuesList l ≠ []
  | [] => by intro h; cases h rfl
  | n :: ns => by
    intro _ hg
    simp only [goodList, Bool.and_eq_true] at hg
    obtain ⟨hgn, hgns⟩ := hg
    have hn := goodNode_flatten n hgn
    cases ns with
    | nil =>
      refine ⟨?_, ?_⟩
      · show joinSpace [flattenNode n] = joinSpace (leafValues n ++ leafValuesList [])
        rw [show leafValuesList [] = [] from rfl, List.append_nil]
        rw [show joinSpace [flattenNode n] = flattenNode n from rfl]
        exact hn.1
      · show leafValues n ++ leafValuesList [] ≠ []
        simp [leafValuesList, hn.2]
    | cons m ms =>
      have hrest := goodList_flatten (m :: ms) (by simp) hgns
      have hfl_ne : flattenList (m :: ms) ≠ [] := by simp [flattenList]
      refine ⟨?_, ?_⟩
      · rw [show flattenList (n :: m :: ms) = flattenNode n :: flattenList (m :: ms)
            from rfl,
          joinSpace_cons _ _ hfl_ne, hn.1, hrest.1,
          show leafValuesList (n :: m :: ms) = leafValues n ++ leafValuesList (m :: ms)
            from rfl,
          joinSpace_append _ _ hn.2 hrest.2]
      · show leafValues n ++ leafValuesList (m :: ms) ≠ []
        simp [hn.2]

end

set_option maxRecDepth 40000

/-- Claim C1, counterexample: `c1Post`'s excerpt contains the query
`"renewable"` (the excerpt-derived snippet would be the full ellipsis-free
excerpt) and its body does not match, the post is retained, yet
`matched_snippet` is absent — the blog-post mapper computes the snippet
from the body text only, not by iterating the field priority list. -/
theorem c1_counterexample :
    blogPostFilter c1Post c1Query = true ∧
    matchesQuery (some (blogPostBodyText c1Post)) c1Query = false ∧
    extractSnippet c1Post.excerpt c1Query 150
      = some (("We explore renewable energy trends").toList) ∧
    (blogPostToResult c1Post c1Query).matched_snippet = none := by decide

/-- Claim C1, amended: for the two Ghost tools (blog posts and blog
pages) `matched_snippet` is always `extractSnippet` of the stripped body
text, regardless of which field matched; in particular when the body does
not match, the retained record's `matched_snippet` is absent. -/
theorem c1_snippet_from_body_only :
    ∀ (p : BlogPost) (pg : BlogPage) (q : List Char),
      (blogPostToResult p q).matched_snippet
          = extractSnippet (some (blogPostBodyText p)) q 150 ∧
      (blogPageToResult pg q).matched_snippet
          = extractSnippet (some (blogPageBodyText pg)) q 150 ∧
      (matchesQuery (some (blogPostBodyText p)) q = false →
        (blogPostToResult p q).matched_snippet = none) ∧
      (matchesQuery (some (blogPageBodyText pg)) q = false →
        (blogPageToResult pg q).matched_snippet = none) := by
  intro p pg q
  refine ⟨rfl, rfl, ?_, ?_⟩
  · intro h
    show extractSnippet (some (blogPostBodyText p)) q 150 = none
    exact matches_false_extract_none _ _ h
  · intro h
    show extractSnippet (some (blogPageBodyText pg)) q 150 = none
    exact matches_false_extract_none _ _ h

/-- Witness for the amended claim C1, at a post and a page whose bodies
are absent. -/
theorem c1_snippet_from_body_only_witness :
    (blogPostToResult c1WitPost (("pricing").toList)).matched_snippet = none ∧
    (blogPageToResult c1WitPage (("about").toList)).matched_snippet = none := by
  have h := c1_snippet_from_body_only c1WitPost c1WitPage (("pricing").toList)
  have h' := c1_snippet_from_body_only c1WitPost c1WitPage (("about").toList)
  exact ⟨h.2.2.1 (by decide), h'.2.2.2 (by decide)⟩

/-- Claim C2, counterexample: in `c2Hay` the query `"q"` occurs exactly
once, at index 151, and `len(H) > 151 + len(Q) + 300`, yet the extracted
snippet DOES carry a leading ellipsis (the claim asserts it has none). -/
theorem c2_counterexample :
    countOccur (toLowerStr c2Hay) (toLowerStr ['q']) = 1 ∧
    occursAt (toLowerStr c2Hay) (toLowerStr ['q']) 151 = true ∧
    151 + (['q'] : List Char).length + 300 < c2Hay.length ∧
    (extractSnippet (some c2Hay) ['q'] 150).map (fun s => ellipsis.isPrefixOf s)
      = some true := by decide

/-- Claim C2, amended: for a haystack containing the query exactly once at
index `i` (in the lowercased forms) with `len(H) > i + len(Q) + 300`, the
snippet has a leading ellipsis iff `i > 150` and always a trailing
ellipsis (the claim's `i + len(Q) + 150 < len(H)` condition holds
trivially under the hypothesis). -/
theorem c2_amended :
    ∀ (t q : List Char) (i : Nat),
      occursAt (toLowerStr t) (toLowerStr q) i = true →
      countOccur (toLowerStr t) (toLowerStr q) = 1 →
      i + q.length + 300 < t.length →
      extractSnippet (some t) q 150 =
        some ((if 150 < i then ellipsis else []) ++
          ((t.take (i + q.length + 150)).drop (i - 150)) ++ ellipsis) := by
  intro t q i hocc hcount hlen
  have hne : t ≠ [] := by
    intro h
    subst h
    simp at hlen
  have hlow : (toLowerStr t).length = t.length := by simp [toLowerStr]
  have hi : i < (toLowerStr t).length + 1 := by omega
  have hf : firstOccur (toLowerStr t) (toLowerStr q) = some i :=
    firstOccur_of_unique _ _ i hocc hi hcount
  rw [extractSnippet_found t q 150 i hne hf]
  have hmin : min t.length (i + q.length + 150) = i + q.length + 150 := by omega
  have hsuf : i + q.length + 150 < t.length := by omega
  rw [hmin, if_pos hsuf]

/-- Witness for the amended claim C2: occurrence at index 0, no leading
ellipsis, trailing ellipsis present. -/
theorem c2_amended_witness :
    extractSnippet (some c2WitHay) ['q'] 150 =
      some (('q' :: List.replicate 150 'a') ++ ellipsis) := by
  rw [c2_amended c2WitHay ['q'] 0 (by decide) (by decide) (by decide)]
  decide

/-- Claim C3, counterexample: the empty string is a present haystack whose
lowercase form contains the lowercase empty query, yet `matchesQuery`
returns false (the `!text` guard also fires on `""`). -/
theorem c3_counterexample :
    toLowerStr [] = [] ++ toLowerStr [] ++ [] ∧
    includesSub (toLowerStr []) (toLowerStr []) = true ∧
    matchesQuery (some ([] : List Char)) [] = false := by decide

/-- Claim C3, amended: `matchesQuery` returns false when the haystack is
absent OR the empty string (both falsy in JavaScript); for a present
non-empty haystack it returns true iff the lowercase haystack contains
the lowercase query as a contiguous substring. -/
theorem c3_matches_characterization :
    ∀ q : List Char,
      matchesQuery none q = false ∧
      matchesQuery (some []) q = false ∧
      ∀ t : List Char, t ≠ [] →
        (matchesQuery (some t) q = true ↔
          ∃ pre post, toLowerStr t = pre ++ toLowerStr q ++ post) := by
  intro q
  refine ⟨rfl, rfl, ?_⟩
  intro t ht
  have hemp : t.isEmpty = false := by simpa using ht
  rw [show matchesQuery (some t) q = includesSub (toLowerStr t) (toLowerStr q) by
    simp [matchesQuery, hemp]]
  exact includesSub_iff_parts _ _

/-- Witness for the amended claim C3 at a mixed-case haystack. -/
theorem c3_matches_characterization_witness :
    matchesQuery (some (("AbC").toList)) (("B").toList) = true ∧
    matchesQuery none (("B").toList) = false := by
  have h := c3_matches_characterization (("B").toList)
  refine ⟨?_, h.1⟩
  exact (h.2.2 (("AbC").toList) (by decide)).mpr
    ⟨("a").toList, ("c").toList, by decide⟩

/-- Claim C4, counterexample: the empty haystack is present and the empty
query IS found in it (at index 0), yet `extractSnippet` returns absent —
so "absent iff H absent or Q not found" fails on the empty string. -/
theorem c4_counterexample :
    firstOccur (toLowerStr []) (toLowerStr []) = some 0 ∧
    extractSnippet (some ([] : List Char)) [] 150 = none := by decide

/-- Claim C4, amended: `extractSnippet` returns absent when the haystack
is absent, when it is the empty string, or when the query is not found;
otherwise it returns the original-case slice over the clamped window
`[idx - c, idx + len(Q) + c]`, prefixed with an ellipsis iff the window
start is positive and suffixed with one iff the window end falls short of
the haystack's end. -/
theorem c4_extract_characterization :
    ∀ (t q : List Char) (c : Nat),
      extractSnippet none q c = none ∧
      extractSnippet (some []) q c = none ∧
      (firstOccur (toLowerStr t) (toLowerStr q) = none →
        extractSnippet (some t) q c = none) ∧
      ∀ idx, t ≠ [] → firstOccur (toLowerStr t) (toLowerStr q) = some idx →
        extractSnippet (some t) q c =
          some ((if c < idx then ellipsis else []) ++
            ((t.take (min t.length (idx + q.length + c))).drop (idx - c)) ++
            (if idx + q.length + c < t.length then ellipsis else [])) := by
  intro t q c
  refine ⟨rfl, rfl, ?_, ?_⟩
  · intro hf
    cases ht : t.isEmpty
    · simp [extractSnippet, ht, hf]
    · simp [extractSnippet, ht]
  · intro idx hne hf
    exact extractSnippet_found t q c idx hne hf

/-- Witness for the amended claim C4 with both ellipses present. -/
theorem c4_extract_characterization_witness :
    extractSnippet (some (("abcde").toList)) (("c").toList) 1
      = some (("...bcd...").toList) := by
  rw [(c4_extract_characterization (("abcde").toList) (("c").toList) 1).2.2.2
    2 (by decide) (by decide)]
  decide

/-- Claim C5: for every haystack (present or absent) and every query, the
containment test agrees with the snippet test — `matchesQuery` is true
iff `extractSnippet` (at the default 150 context) is non-absent. -/
theorem c5_matches_iff_snippet :
    ∀ (text : Option (List Char)) (q : List Char),
      matchesQuery text q = true ↔ (extractSnippet text q 150).isSome = true := by
  intro text q
  rw [matches_eq_extract_isSome]

/-- Claim C6: the flattener satisfies the section 4.1 contract (cases read
in declaration order), and the concrete doubly-nested two-leaf example
flattens to `"a b"`. -/
theorem c6_flatten_contract :
    flattenContract extractTextFromRichText ∧
    extractTextFromRichText (some c6Nested) = ("a b").toList := by
  constructor
  · refine ⟨rfl, ?_, ?_, ?_⟩
    · intro v c
      exact flattenNode_text _ v c rfl
    · intro nt v children hnt
      show flattenNode (RichNode.mk nt v (some children)) = _
      rw [flattenNode_container nt v children hnt, flattenList_eq_map]
      rfl
    · intro nt v hnt
      show flattenNode (RichNode.mk nt v none) = []
      unfold flattenNode
      rw [if_neg hnt]
  · decide

/-- Witness for claim C6 at a one-child container and the absent document. -/
theorem c6_flatten_contract_witness :
    extractTextFromRichText (some (RichNode.mk (some (("paragraph").toList)) none
        (some [textNodeOf (("x").toList)]))) = ("x").toList ∧
    extractTextFromRichText none = [] := by
  have h := c6_flatten_contract
  refine ⟨?_, h.1.1⟩
  rw [h.1.2.2.1 (some (("paragraph").toList)) none [textNodeOf (("x").toList)]
    (by decide)]
  decide

/-- Claim C7, counterexample: interleaving a kind-less childless node
between the leaves `"a"` and `"b"` makes the flattener emit TWO spaces
between the adjacent leaf values, so the output differs from the
depth-first leaf values joined with a single space. -/
theorem c7_counterexample :
    extractTextFromRichText (some c7Bad) = ("a  b").toList ∧
    joinSpace (leafValues c7Bad) = ("a b").toList ∧
    extractTextFromRichText (some c7Bad) ≠ joinSpace (leafValues c7Bad) := by
  decide

/-- Claim C7, amended: the flattener's output equals the depth-first leaf
values joined with single spaces on trees all of whose nodes are text
nodes or containers with a non-empty content sequence; children that
flatten with no leaf (kind-less nodes, empty containers) insert extra
separator spaces instead. -/
theorem c7_flatten_eq_leaf_join :
    ∀ n : RichNode, goodNode n = true →
      extractTextFromRichText (some n) = joinSpace (leafValues n) := by
  intro n hg
  exact (goodNode_flatten n hg).1

/-- Witness for the amended claim C7 on a mixed nesting of containers and
leaves. -/
theorem c7_flatten_eq_leaf_join_witness :
    extractTextFromRichText (some c7Good) = ("a b").toList := by
  rw [c7_flatten_eq_leaf_join c7Good (by decide)]
  decide

/-- Claim C8: an internal event page whose heroTitle, metaDescription and
flattened additional details do not match while the flattened agenda
does, is retained and its `matched_snippet` is the agenda-derived
snippet, which is non-absent. -/
theorem c8_agenda_snippet :
    ∀ (evt : InternalEvent) (q : List Char),
      matchesQuery evt.heroTitle q = false →
      matchesQuery evt.metaDescription q = false →
      matchesQuery (some (extractTextFromRichText evt.additionalEventDetails)) q
        = false →
      matchesQuery (some (extractTextFromRichText evt.agenda)) q = true →
      internalEventFilter evt q = true ∧
      internalEventSnippet evt q =
        extractPlainTextSnippet (some (extractTextFromRichText evt.agenda)) q 150 ∧
      internalEventSnippet evt q ≠ none := by
  intro evt q h1 h2 h3 h4
  have e1 : extractPlainTextSnippet evt.heroTitle q 150 = none :=
    matches_false_plain_none _ _ h1
  have e2 : extractPlainTextSnippet evt.metaDescription q 150 = none :=
    matches_false_plain_none _ _ h2
  have e3 : extractPlainTextSnippet
      (some (extractTextFromRichText evt.additionalEventDetails)) q 150 = none :=
    matches_false_plain_none _ _ h3
  have e4 : (extractPlainTextSnippet
      (some (extractTextFromRichText evt.agenda)) q 150).isSome = true := by
    rw [extractPlain_eq_extract, ← matches_eq_extract_isSome]
    exact h4
  have hs : internalEventSnippet evt q =
      extractPlainTextSnippet (some (extractTextFromRichText evt.agenda)) q 150 := by
    simp [internalEventSnippet, e1, e2, e3, jsOrElse]
  refine ⟨by simp [internalEventFilter, h4], hs, ?_⟩
  rw [hs]
  intro hnone
  rw [hnone] at e4
  simp at e4

/-- Witness for claim C8 at the concrete event fixture. -/
theorem c8_agenda_snippet_witness :
    internalEventFilter c8Event c8Query = true ∧
    internalEventSnippet c8Event c8Query
      = some (("renewable energy panel").toList) := by
  have h := c8_agenda_snippet c8Event c8Query (by decide) (by decide) (by decide)
    (by decide)
  refine ⟨h.1, ?_⟩
  rw [h.2.1]
  decide

/-- Claim C9: generic record-matcher inclusion is monotonic in the field
list — every record retained under a field list is still retained after
appending one more field. -/
theorem c9_inclusion_monotonic :
    ∀ {α : Type} (fields : List (α → Option (List Char)))
      (f : α → Option (List Char)) (q : List Char) (records : List α) (r : α),
      r ∈ records.filter (fun x => recordRetained fields q x) →
      r ∈ records.filter (fun x => recordRetained (fields ++ [f]) q x) := by
  intro α fields f q records r hr
  rw [List.mem_filter] at hr ⊢
  refine ⟨hr.1, ?_⟩
  have h2 := hr.2
  unfold recordRetained at h2 ⊢
  rw [List.any_append]
  simp [h2]

/-- Witness for claim C9: a title-matching post stays retained after the
excerpt field is appended to the field list. -/
theorem c9_inclusion_monotonic_witness :
    c9Post ∈ [c9Post].filter
      (fun x => recordRetained
        ([fun p : BlogPost => p.title] ++ [fun p : BlogPost => p.excerpt])
        c9Query x) := by
  exact c9_inclusion_monotonic [fun p : BlogPost => p.title]
    (fun p : BlogPost => p.excerpt) c9Query [c9Post] c9Post (by decide)

/-- Claim C10: the Ghost-side and Contentful-side snippet extractors are
extensionally equal. -/
theorem c10_extract_functions_equal :
    ∀ (text : Option (List Char)) (q : List Char) (c : Nat),
      extractSnippet text q c = extractPlainTextSnippet text q c := by
  intro text q c
  exact (extractPlain_eq_extract text q c).symm

/-- The blog-post filter is the generic inclusion test at the field list
title, excerpt, stripped body. -/
theorem blogPostFilter_as_recordRetained :
    ∀ (p : BlogPost) (q : List Char),
      blogPostFilter p q = recordRetained
        [fun x : BlogPost => x.title, fun x : BlogPost => x.excerpt,
         fun x : BlogPost => some (blogPostBodyText x)] q p := by
  intro p q
  simp [blogPostFilter, recordRetained, Bool.or_assoc]

/-- The case-study filter is the generic inclusion test at the field list
name, metaTitle, metaDescription, overview, quoteText, useCase, impact,
flattened body. -/
theorem caseStudyFilter_as_recordRetained :
    ∀ (s : CaseStudy) (q : List Char),
      caseStudyFilter s q = recordRetained
        [fun x : CaseStudy => x.name, fun x : CaseStudy => x.metaTitle,
         fun x : CaseStudy => x.metaDescription, fun x : CaseStudy => x.overview,
         fun x : CaseStudy => x.quoteText, fun x : CaseStudy => x.useCase,
         fun x : CaseStudy => x.impact,
         fun x : CaseStudy => some (caseStudyBodyText x)] q s := by
  intro s q
  simp [caseStudyFilter, recordRetained, Bool.or_assoc]
